import Mathlib

/-!
Verification development for the License-Management-API repository.

Part 1 models `src/database/schema.js`: a MongoDB script that drops every
collection of the `license_management_api` database, recreates the
collections with `$jsonSchema` validators, builds indexes, and seeds an
admin user plus system settings.

Part 2 models the License & Entitlement Engine described by the
specification (Key Codec, Quota Ledger, License State Machine, Activation
Coordinator, Abuse Monitor, Entitlement API).  The repository ships no
implementation of the engine — only its database schema and configuration —
so those definitions are modelled from the specification text, and each
carries a doc comment saying so.
-/

namespace LicenseAPI

/-! ### BSON documents and the MongoDB database state -/

/-- A BSON value, restricted to the types used by `schema.js` validators
and seed documents.  Doubles carry no payload: no modelled document
contains one, and validators only need the type tag. -/
inductive BsonValue where
  | str (s : String)
  | int (i : Int)
  | double
  | bool (b : Bool)
  | date (t : Nat)
  | arr (elems : List BsonValue)
  | obj (fields : List (String × BsonValue))

/-- A BSON document: an ordered list of named fields. -/
abbrev BsonDoc := List (String × BsonValue)

/-- The state of the `license_management_api` database: its collections,
each a name paired with the list of documents it holds. -/
structure MongoDB where
  collections : List (String × List BsonDoc)

/-- `db.getCollection(name).drop()`: removes the collection. -/
def dropCollection (db : MongoDB) (name : String) : MongoDB :=
  ⟨db.collections.filter (fun c => c.1 != name)⟩

/-- Lines 8–10 of `schema.js`:
`db.getCollectionNames().forEach((collection) => drop them all)`. -/
def dropAllCollections (db : MongoDB) : MongoDB :=
  (db.collections.map Prod.fst).foldl dropCollection db

/-- `db.createCollection(name, ...)`: adds an empty collection.  The
validator argument is modelled separately (see `validatorAccepts`). -/
def createCollection (db : MongoDB) (name : String) : MongoDB :=
  ⟨db.collections ++ [(name, [])]⟩

/-- `db.<coll>.insertOne(doc)`: appends `doc` to the named collection. -/
def insertOne (db : MongoDB) (coll : String) (doc : BsonDoc) : MongoDB :=
  ⟨db.collections.map (fun c => if c.1 = coll then (c.1, c.2 ++ [doc]) else c)⟩

/-- `db.<coll>.insertMany(docs)`. -/
def insertMany (db : MongoDB) (coll : String) (docs : List BsonDoc) : MongoDB :=
  ⟨db.collections.map (fun c => if c.1 = coll then (c.1, c.2 ++ docs) else c)⟩

/-- The collection names created by `schema.js` lines 12–315, in source
order. -/
def createdCollectionNames : List String :=
  ["users", "licenses", "subscriptions", "payments", "api_keys",
   "webhooks", "metrics", "alerts", "security_logs", "blocked_ips",
   "ml_models", "resellers", "affiliates", "feature_flags",
   "system_settings"]

/-- The `value` object of the seeded `license_settings` system setting
(`schema.js` lines 374–379). -/
def licenseSettingsValue : List (String × BsonValue) :=
  [("trial_duration_days", .int 14),
   ("max_devices_basic", .int 2),
   ("max_devices_pro", .int 5),
   ("max_devices_enterprise", .int (-1))]

/-- The seeded admin user (`schema.js` lines 358–368); `now` stands for
`new Date()`. -/
def adminUserDoc (now : Nat) : BsonDoc :=
  [("email", .str "admin@example.com"),
   ("username", .str "admin"),
   ("password_hash", .str "$2b$12$LQv3c1yqBWVHxkd0LHAkCOYz6TtxMQJqhN8/LewFX1FKFAQNkJGPK"),
   ("role", .str "admin"),
   ("is_active", .bool true),
   ("is_verified", .bool true),
   ("auth_provider", .str "local"),
   ("created_at", .date now),
   ("updated_at", .date now)]

/-- The seeded `license_settings` document (`schema.js` lines 372–382). -/
def licenseSettingsDoc (now : Nat) : BsonDoc :=
  [("key", .str "license_settings"),
   ("value", .obj licenseSettingsValue),
   ("created_at", .date now),
   ("updated_at", .date now)]

/-- The seeded `security_settings` document (`schema.js` lines 383–393). -/
def securitySettingsDoc (now : Nat) : BsonDoc :=
  [("key", .str "security_settings"),
   ("value", .obj [("max_login_attempts", .int 5),
                   ("lockout_duration_minutes", .int 30),
                   ("jwt_expiry_hours", .int 24),
                   ("require_2fa_for_admin", .bool true)]),
   ("created_at", .date now),
   ("updated_at", .date now)]

/-- The seeded `api_settings` document (`schema.js` lines 394–403). -/
def apiSettingsDoc (now : Nat) : BsonDoc :=
  [("key", .str "api_settings"),
   ("value", .obj [("rate_limit_per_minute", .int 60),
                   ("max_payload_size_mb", .int 10),
                   ("require_https", .bool true)]),
   ("created_at", .date now),
   ("updated_at", .date now)]

/-- The whole `schema.js` script run against database state `db` at time
`now`: drop every existing collection, create the fifteen collections,
then seed the admin user and the three system settings.  Index creation
does not change the collection contents and is modelled by
`createdIndexes`. -/
def runSchemaJs (now : Nat) (db : MongoDB) : MongoDB :=
  let db1 := dropAllCollections db
  let db2 := createdCollectionNames.foldl createCollection db1
  let db3 := insertOne db2 "users" (adminUserDoc now)
  insertMany db3 "system_settings"
    [licenseSettingsDoc now, securitySettingsDoc now, apiSettingsDoc now]

/-- The database state `schema.js` leaves behind, written out explicitly:
exactly the fifteen created collections, all empty except for the seeded
admin user and the three system settings. -/
def schemaResult (now : Nat) : MongoDB :=
  ⟨[("users", [adminUserDoc now]),
    ("licenses", []),
    ("subscriptions", []),
    ("payments", []),
    ("api_keys", []),
    ("webhooks", []),
    ("metrics", []),
    ("alerts", []),
    ("security_logs", []),
    ("blocked_ips", []),
    ("ml_models", []),
    ("resellers", []),
    ("affiliates", []),
    ("feature_flags", []),
    ("system_settings",
      [licenseSettingsDoc now, securitySettingsDoc now, apiSettingsDoc now])]⟩

/-! ### Index specifications (`schema.js` lines 318–355) -/

/-- One `createIndex` call: target collection, key pattern, and options. -/
structure IndexSpec where
  coll : String
  keys : List (String × Int)
  unique : Bool := false
  sparse : Bool := false
  expireAfterSeconds : Option Nat := none
deriving DecidableEq

/-- Every index created by `schema.js` (lines 318–355), in source order. -/
def createdIndexes : List IndexSpec :=
  [{ coll := "users", keys := [("email", 1)], unique := true },
   { coll := "users", keys := [("username", 1)], unique := true },
   { coll := "users", keys := [("api_key", 1)], unique := true, sparse := true },
   { coll := "licenses", keys := [("key", 1)], unique := true },
   { coll := "licenses", keys := [("user_id", 1)] },
   { coll := "subscriptions", keys := [("user_id", 1)] },
   { coll := "subscriptions", keys := [("status", 1)] },
   { coll := "payments", keys := [("user_id", 1)] },
   { coll := "payments", keys := [("subscription_id", 1)] },
   { coll := "payments", keys := [("provider_payment_id", 1)] },
   { coll := "api_keys", keys := [("key", 1)], unique := true },
   { coll := "api_keys", keys := [("user_id", 1)] },
   { coll := "webhooks", keys := [("user_id", 1)] },
   { coll := "webhooks", keys := [("events", 1)] },
   { coll := "metrics", keys := [("name", 1), ("timestamp", -1)] },
   { coll := "metrics", keys := [("timestamp", 1)], expireAfterSeconds := some 7776000 },
   { coll := "security_logs", keys := [("user_id", 1)] },
   { coll := "security_logs", keys := [("ip_address", 1)] },
   { coll := "security_logs", keys := [("created_at", 1)], expireAfterSeconds := some 31536000 },
   { coll := "blocked_ips", keys := [("ip_address", 1)], unique := true },
   { coll := "resellers", keys := [("user_id", 1)], unique := true },
   { coll := "resellers", keys := [("company_name", 1)] },
   { coll := "affiliates", keys := [("user_id", 1)], unique := true },
   { coll := "affiliates", keys := [("affiliate_code", 1)], unique := true },
   { coll := "feature_flags", keys := [("name", 1)], unique := true },
   { coll := "system_settings", keys := [("key", 1)], unique := true }]

/-! ### The `$jsonSchema` validator of the `licenses` collection -/

/-- A property constraint of a `$jsonSchema` validator: either a
`bsonType` requirement or an `enum` of allowed string values. -/
inductive PropConstraint where
  | bsonType (t : String)
  | enumOf (allowed : List String)

/-- The BSON type tag of a value, as MongoDB names it. -/
def bsonTypeOf : BsonValue → String
  | .str _ => "string"
  | .int _ => "int"
  | .double => "double"
  | .bool _ => "bool"
  | .date _ => "date"
  | .arr _ => "array"
  | .obj _ => "object"

/-- Whether a value satisfies one property constraint. -/
def checkConstraint : PropConstraint → BsonValue → Bool
  | .bsonType t, v => bsonTypeOf v == t
  | .enumOf allowed, v =>
    match v with
    | .str s => allowed.contains s
    | _ => false

/-- A `$jsonSchema` validator accepts a document when every required
field is present and every present field that has a declared property
constraint satisfies it (fields without a declared property are allowed:
the validators set no `additionalProperties`). -/
def validatorAccepts (required : List String)
    (props : List (String × PropConstraint)) (doc : BsonDoc) : Bool :=
  required.all (fun r => doc.any (fun f => f.1 == r)) &&
  doc.all (fun f =>
    match props.find? (fun p => p.1 == f.1) with
    | some p => checkConstraint p.2 f.2
    | none => true)

/-- The `required` list of the `licenses` validator (`schema.js` line 48). -/
def licensesRequired : List String :=
  ["key", "user_id", "type", "is_active", "created_at"]

/-- The `properties` of the `licenses` validator (`schema.js` lines 49–63). -/
def licensesProps : List (String × PropConstraint) :=
  [("key", .bsonType "string"),
   ("user_id", .bsonType "string"),
   ("type", .enumOf ["trial", "basic", "pro", "enterprise"]),
   ("features", .bsonType "array"),
   ("max_devices", .bsonType "int"),
   ("max_api_calls", .bsonType "int"),
   ("is_active", .bsonType "bool"),
   ("activation_date", .bsonType "date"),
   ("expiration_date", .bsonType "date"),
   ("last_checked", .bsonType "date"),
   ("metadata", .bsonType "object"),
   ("created_at", .bsonType "date"),
   ("updated_at", .bsonType "date")]

/-- A license document carrying only the five required fields: no
`max_devices`, no `max_api_calls`, no `expiration_date`, no
`activation_date`. -/
def minimalLicenseDoc : BsonDoc :=
  [("key", .str "LIC-0001"),
   ("user_id", .str "user-1"),
   ("type", .str "basic"),
   ("is_active", .bool true),
   ("created_at", .date 0)]

/-! ### The License & Entitlement Engine, modelled from the specification

The repository ships only the database schema and configuration for the
engine, not its implementation, so the definitions below are modelled
from the specification text (sections 3–7).  Time is a `Nat` tick;
concurrency is modelled by linearization: the specification requires all
counter updates to go through the store's atomic conditional-update
primitive, making per-license operations linearizable, so a concurrent
execution is an arbitrary arrival order of atomic steps. -/

/-- Modelled from the spec: a License record (spec section 3, backed by the
`licenses` collection of `schema.js` lines 44–66).  `maxDevices` and
`maxApiCalls` use the source's `-1` sentinel for unlimited; a missing
`expiration_date` means non-expiring. -/
structure License where
  key : String
  userId : String
  tier : String
  maxDevices : Int
  maxApiCalls : Int
  isActive : Bool
  expirationDate : Option Nat
  lastChecked : Option Nat
deriving DecidableEq

/-- Modelled from the spec: a Block Entry (spec section 3; `blocked_ips`
collection, `schema.js` lines 209–222).  `blockedUntil = none` is a
permanent block; `some t` self-expires at time `t`. -/
structure BlockEntry where
  ip : String
  blockedUntil : Option Nat
deriving DecidableEq

/-- Modelled from the spec: a Security Event written to the append-only
log sink (spec sections 3 and 6; `security_logs` collection). -/
structure SecurityEvent where
  eventType : String
  ip : String
  time : Nat
deriving DecidableEq

/-- Modelled from the spec: the Abuse Monitor configuration (spec
sections 4.5 and 6: abuse-window size, threshold, block duration). -/
structure AbuseConfig where
  window : Nat
  threshold : Nat
  blockDuration : Nat
deriving DecidableEq

/-- Modelled from the spec: the engine state — licenses, device
activations keyed by (license key, device fingerprint), per-license
usage counters, the Abuse Monitor's failure window and blocklist, and
the append-only security log. -/
structure EngineState where
  cfg : AbuseConfig
  licenses : List License
  activations : List (String × String)
  callsUsed : List (String × Nat)
  failures : List (String × Nat)
  blocked : List BlockEntry
  securityLog : List SecurityEvent
deriving DecidableEq

/-- Modelled from the spec: look a license up by key in the record store. -/
def lookupLicense (st : EngineState) (key : String) : Option License :=
  st.licenses.find? (fun l => l.key == key)

/-- Modelled from the spec: the number of active device activations of a
license (the Quota Ledger's device counter). -/
def countDevices (st : EngineState) (key : String) : Nat :=
  (st.activations.filter (fun a => a.1 == key)).length

/-- Modelled from the spec: the usage counter `calls_used` of a license,
zero when no counter record exists yet. -/
def getCalls (st : EngineState) (key : String) : Nat :=
  match st.callsUsed.find? (fun c => c.1 == key) with
  | some c => c.2
  | none => 0

/-- Modelled from the spec: store a new value of `calls_used`. -/
def setCalls (st : EngineState) (key : String) (n : Nat) : EngineState :=
  if st.callsUsed.any (fun c => c.1 == key) then
    { st with callsUsed := st.callsUsed.map (fun c => if c.1 = key then (c.1, n) else c) }
  else
    { st with callsUsed := (key, n) :: st.callsUsed }

/-- Modelled from the spec: `isBlocked` (spec 4.5) — an IP is blocked when
some Block Entry for it is permanent (`blockedUntil = none`) or has not
yet expired (`now < t`). -/
def isBlocked (st : EngineState) (ip : String) (now : Nat) : Bool :=
  st.blocked.any (fun e =>
    e.ip == ip &&
    match e.blockedUntil with
    | none => true
    | some t => now < t)

/-- Modelled from the spec: the sliding-window failure count of an IP —
failures recorded at a time `t ≤ now` with `now < t + window`. -/
def recentFailures (st : EngineState) (ip : String) (now : Nat) : Nat :=
  (st.failures.filter (fun f =>
    f.1 == ip && f.2 ≤ now && now < f.2 + st.cfg.window)).length

/-- Modelled from the spec: `recordFailure` (spec 4.5) — record the
failure; if the window count reaches the threshold, create a temporary
Block Entry with block-until = now + block duration. -/
def recordFailure (st : EngineState) (ip : String) (now : Nat) : EngineState :=
  let st1 := { st with failures := (ip, now) :: st.failures }
  if st1.cfg.threshold ≤ recentFailures st1 ip now then
    { st1 with blocked := ⟨ip, some (now + st1.cfg.blockDuration)⟩ :: st1.blocked }
  else st1

/-- Modelled from the spec: append a Security Event to the log sink
(append-only: the core only ever adds at the end). -/
def logEvent (st : EngineState) (e : SecurityEvent) : EngineState :=
  { st with securityLog := st.securityLog ++ [e] }

/-- Modelled from the spec: every rejection is logged as a Security Event
and feeds `recordFailure` (spec sections 4.6 and 7). -/
def rejectPath (st : EngineState) (ip : String) (now : Nat) (eventType : String) : EngineState :=
  recordFailure (logEvent st ⟨eventType, ip, now⟩) ip now

/-- Modelled from the spec: `last_checked` is updated on every validation
regardless of outcome (spec 4.3). -/
def touchLastChecked (st : EngineState) (key : String) (now : Nat) : EngineState :=
  { st with licenses :=
      st.licenses.map (fun l => if l.key = key then { l with lastChecked := some now } else l) }

/-- Modelled from the spec: the typed outcome of license validation
(spec 4.3 and section 7).  The schema expresses lifecycle as flag/date
combinations, which yield `expired` and `inactive`; `suspended` and
`revoked` are the remaining states of the spec's taxonomy. -/
inductive ValidationResult where
  | valid
  | expired
  | suspended
  | revoked
  | inactive
deriving DecidableEq

/-- Modelled from the spec: the State Machine's validation of one license
at time `now` — expired when the expiration date has passed (`valid`
requires now < expiration_date, spec 4.3), and a license with
`is_active = false` is rejected regardless of dates (spec section 3). -/
def validateLicense (lic : License) (now : Nat) : ValidationResult :=
  match lic.expirationDate with
  | some e => if e ≤ now then .expired
              else if lic.isActive then .valid else .inactive
  | none => if lic.isActive then .valid else .inactive

/-- Modelled from the spec: the Activation Coordinator's result type
(spec 4.4); `alreadyActivated` is a success variant, not an error. -/
inductive ActivationResult where
  | activated
  | alreadyActivated
  | deviceLimitExceeded
  | licenseInvalid (r : ValidationResult)
  | licenseNotFound
deriving DecidableEq

/-- Modelled from the spec: `activate` of the Activation Coordinator
(spec 4.4) — validate via the State Machine; if valid, return
`alreadyActivated` when the fingerprint is already bound (state
unchanged); otherwise atomically test the device count against
`max_devices` (`-1` short-circuits the cap check) and either reject with
`deviceLimitExceeded` or record the activation. -/
def activate (st : EngineState) (now : Nat) (key device : String) :
    ActivationResult × EngineState :=
  match lookupLicense st key with
  | none => (.licenseNotFound, st)
  | some lic =>
    if validateLicense lic now = .valid then
      if (key, device) ∈ st.activations then (.alreadyActivated, st)
      else if lic.maxDevices ≠ -1 ∧ lic.maxDevices ≤ (countDevices st key : Int) then
        (.deviceLimitExceeded, st)
      else (.activated, { st with activations := (key, device) :: st.activations })
    else (.licenseInvalid (validateLicense lic now), st)

/-- Modelled from the spec: `deactivate` (spec 4.4) — remove the
(key, device) record; deactivating a non-existent pair is a no-op. -/
def deactivate (st : EngineState) (key device : String) : EngineState :=
  { st with activations := st.activations.filter (fun a => a != (key, device)) }

/-- Modelled from the spec: the Quota Ledger's call-consumption result
(spec 4.2). -/
inductive QuotaResult where
  | ok
  | quotaExceeded
  | licenseNotFound
deriving DecidableEq

/-- Modelled from the spec: `tryConsumeCall` (spec 4.2) — an atomic
test-and-increment of `calls_used` against `max_api_calls`; `-1`
short-circuits the check; a call that would exceed the cap returns
`quotaExceeded` and leaves the counter unchanged. -/
def consume (st : EngineState) (key : String) (n : Nat) : QuotaResult × EngineState :=
  match lookupLicense st key with
  | none => (.licenseNotFound, st)
  | some lic =>
    if lic.maxApiCalls = -1 then (.ok, setCalls st key (getCalls st key + n))
    else if lic.maxApiCalls < ((getCalls st key + n : Nat) : Int) then (.quotaExceeded, st)
    else (.ok, setCalls st key (getCalls st key + n))

/-- Modelled from the spec: the Entitlement API's validate outcome — the
abuse check can return `blocked` before any license lookup (spec 4.5/4.6). -/
inductive ValidateOutcome where
  | blocked
  | notFound
  | result (r : ValidationResult)
deriving DecidableEq

/-- Modelled from the spec: façade `validate(key)` (spec 4.6) — check the
Abuse Monitor first (before any license lookup); update `last_checked`
on every validation; every failure path logs a Security Event and feeds
`recordFailure`. -/
def apiValidate (st : EngineState) (ip : String) (now : Nat) (key : String) :
    ValidateOutcome × EngineState :=
  if isBlocked st ip now then (.blocked, st)
  else
    match lookupLicense st key with
    | none => (.notFound, rejectPath st ip now "license_not_found")
    | some lic =>
      if validateLicense lic now = .valid then
        (.result .valid, touchLastChecked st key now)
      else
        (.result (validateLicense lic now),
          rejectPath (touchLastChecked st key now) ip now "license_invalid")

/-- Modelled from the spec: the Entitlement API's activation outcome. -/
inductive ActivationOutcome where
  | blocked
  | ok (r : ActivationResult)
deriving DecidableEq

/-- Modelled from the spec: façade `activate(key, device)` (spec 4.6) —
abuse check first, then the Activation Coordinator; failure paths feed
the reject path. -/
def apiActivate (st : EngineState) (ip : String) (now : Nat) (key device : String) :
    ActivationOutcome × EngineState :=
  if isBlocked st ip now then (.blocked, st)
  else
    match activate st now key device with
    | (.activated, st') => (.ok .activated, st')
    | (.alreadyActivated, st') => (.ok .alreadyActivated, st')
    | (r, st') => (.ok r, rejectPath st' ip now "activation_rejected")

/-- Modelled from the spec: façade `deactivate(key, device)` (spec 4.6) —
abuse check first; deactivation of a non-existent pair is a no-op
success, so there is no failure path to feed. -/
def apiDeactivate (st : EngineState) (ip : String) (now : Nat) (key device : String) :
    EngineState :=
  if isBlocked st ip now then st else deactivate st key device

/-- Modelled from the spec: façade `consume(key, amount)` (spec 4.6). -/
def apiConsume (st : EngineState) (ip : String) (now : Nat) (key : String) (n : Nat) :
    QuotaResult × EngineState :=
  if isBlocked st ip now then (.quotaExceeded, st)
  else
    match consume st key n with
    | (.ok, st') => (.ok, st')
    | (r, st') => (r, rejectPath st' ip now "quota_rejected")

/-- Modelled from the spec: one caller-facing operation of the
Entitlement API (spec section 6). -/
inductive Operation where
  | validate (ip : String) (now : Nat) (key : String)
  | activate (ip : String) (now : Nat) (key device : String)
  | deactivate (ip : String) (now : Nat) (key device : String)
  | consume (ip : String) (now : Nat) (key : String) (n : Nat)

/-- Modelled from the spec: the state transition of one API operation. -/
def stepOp (st : EngineState) : Operation → EngineState
  | .validate ip now key => (apiValidate st ip now key).2
  | .activate ip now key device => (apiActivate st ip now key device).2
  | .deactivate ip now key device => apiDeactivate st ip now key device
  | .consume ip now key n => (apiConsume st ip now key n).2

/-- Modelled from the spec: a finite run of API operations — one
linearization of a concurrent execution. -/
def runOps (st : EngineState) (ops : List Operation) : EngineState :=
  ops.foldl stepOp st

/-- Modelled from the spec: a batch of activation attempts for one
license from a list of device fingerprints, in arrival order, returning
the per-attempt results. -/
def activateAll (st : EngineState) (now : Nat) (key : String) :
    List String → List ActivationResult × EngineState
  | [] => ([], st)
  | d :: ds =>
    let p := activate st now key d
    let q := activateAll p.2 now key ds
    (p.1 :: q.1, q.2)

/-- Modelled from the spec: `k` repeated `consume(key, 1)` calls against
the Quota Ledger, returning the per-call results in order. -/
def consumeTrace (st : EngineState) (key : String) : Nat → List QuotaResult × EngineState
  | 0 => ([], st)
  | k + 1 =>
    let p := consume st key 1
    let q := consumeTrace p.2 key k
    (p.1 :: q.1, q.2)

/-- Modelled from the spec: iterate `activate` of the same
(key, device) pair `n` times, keeping only the state. -/
def iterActivate (now : Nat) (key device : String) : Nat → EngineState → EngineState
  | 0, st => st
  | n + 1, st => iterActivate now key device n (activate st now key device).2

/-- The number of occurrences of one activation result in a list of
per-attempt results. -/
def resCount (r : ActivationResult) : List ActivationResult → Nat
  | [] => 0
  | x :: xs => (if x = r then 1 else 0) + resCount r xs

/-- The device-cap invariant (spec section 3): the number of active
device activations of a license never exceeds its `max_devices`, unless
`max_devices` is the `-1` unlimited sentinel.  Stated for every license
record reachable by key lookup. -/
def DeviceInvariant (st : EngineState) : Prop :=
  ∀ lic ∈ st.licenses, lookupLicense st lic.key = some lic →
    lic.maxDevices ≠ -1 → (countDevices st lic.key : Int) ≤ lic.maxDevices

instance (st : EngineState) : Decidable (DeviceInvariant st) := by
  unfold DeviceInvariant
  infer_instance

/-- The license-field update of `touchLastChecked`. -/
def touchFun (key : String) (now : Nat) (l : License) : License :=
  if l.key = key then { l with lastChecked := some now } else l

/-! ### Demonstration license and state for witnesses -/

/-- A demonstration license: `max_devices = 2`, unlimited API calls,
active, non-expiring. -/
def demoLicense : License :=
  { key := "L1", userId := "u1", tier := "basic", maxDevices := 2,
    maxApiCalls := -1, isActive := true, expirationDate := none, lastChecked := none }

/-- A fresh engine state holding only `demoLicense`, with abuse window
100, threshold 3 and block duration 50. -/
def demoState : EngineState :=
  { cfg := { window := 100, threshold := 3, blockDuration := 50 },
    licenses := [demoLicense], activations := [], callsUsed := [],
    failures := [], blocked := [], securityLog := [] }

/-- An expired-but-active license used by the C5 witness. -/
def expiredLicense : License :=
  { key := "E1", userId := "u1", tier := "basic", maxDevices := 2,
    maxApiCalls := 100, isActive := true, expirationDate := some 10, lastChecked := none }

/-- A license used by the quota scenario: `max_api_calls = 100`. -/
def quotaLicense : License :=
  { key := "Q1", userId := "u1", tier := "pro", maxDevices := 5,
    maxApiCalls := 100, isActive := true, expirationDate := none, lastChecked := none }

/-- A fresh engine state holding only `quotaLicense`. -/
def quotaState : EngineState :=
  { cfg := { window := 100, threshold := 3, blockDuration := 50 },
    licenses := [quotaLicense], activations := [], callsUsed := [],
    failures := [], blocked := [], securityLog := [] }

/-- The state with one more recorded failure for `ip` at `now` (the
first half of `recordFailure`). -/
def pushFailure (st : EngineState) (ip : String) (now : Nat) : EngineState :=
  { st with failures := (ip, now) :: st.failures }

/-- The state `recordFailure` produces once the threshold is reached:
the failure is recorded and a temporary Block Entry with
block-until = now + block duration is added. -/
def blockedAfterFailure (st : EngineState) (ip : String) (now : Nat) : EngineState :=
  { pushFailure st ip now with blocked := BlockEntry.mk ip (some (now + st.cfg.blockDuration)) :: st.blocked }

/-- The IP used by the C6 blocking scenario. -/
def c6Ip : String := "9.9.9.9"

/-- The engine state after three failed validations (unknown key `BAD`)
from `c6Ip` at times 1, 2, 3 against the demonstration state, whose
abuse threshold is 3 and block duration 50. -/
def c6After : EngineState :=
  (apiValidate (apiValidate (apiValidate demoState c6Ip 1 "BAD").2 c6Ip 2 "BAD").2
    c6Ip 3 "BAD").2

/-- A state in which `c6Ip` carries a permanent block. -/
def blockedState : EngineState :=
  { demoState with blocked := [⟨c6Ip, none⟩] }

/-! ### Helper lemmas about `schema.js` -/

/-- Folding `dropCollection` over a list of names removes exactly the
collections whose name occurs in the list. -/
theorem foldl_dropCollection (names : List String) (db : MongoDB) :
    (names.foldl dropCollection db).collections
      = db.collections.filter (fun c => !(names.contains c.1)) := by
  induction names generalizing db with
  | nil => simp
  | cons n ns ih =>
    rw [List.foldl_cons, ih, dropCollection, List.filter_filter]
    apply List.filter_congr
    intro c _
    by_cases hcn : c.1 = n <;>
      simp [List.contains_cons, Bool.not_or, bne, Bool.and_comm, hcn]

/-- Lines 8–10 of `schema.js` empty the database whatever its prior
contents: every collection's own name is in `getCollectionNames()`. -/
theorem dropAllCollections_eq_empty (db : MongoDB) :
    dropAllCollections db = ⟨[]⟩ := by
  have h : (dropAllCollections db).collections = [] := by
    rw [dropAllCollections, foldl_dropCollection, List.filter_eq_nil_iff]
    intro c hc
    simp only [Bool.not_eq_true', Bool.not_eq_false]
    exact List.elem_eq_true_of_mem (List.mem_map_of_mem Prod.fst hc)
  cases hdb : dropAllCollections db
  rw [hdb] at h
  simpa using h

/-- The full effect of `schema.js`: independent of the initial database
state, the result is exactly the fifteen fresh collections plus the
seeded admin user and the three system settings. -/
theorem runSchemaJs_eq_schemaResult (now : Nat) (db : MongoDB) :
    runSchemaJs now db = schemaResult now := by
  unfold runSchemaJs
  rw [dropAllCollections_eq_empty]
  rfl

/-! ### Claims C8, C9, C10 -/

/-- C8: running the schema-initialization script unconditionally drops
every existing collection before recreating them, so afterwards the
database contains exactly the freshly created collections plus the
seeded admin user and system settings — all pre-existing licenses,
users, and logs are destroyed. -/
theorem C8_schema_reset :
    (∀ now db, runSchemaJs now db = schemaResult now)
    ∧ (∀ now, (schemaResult now).collections.map Prod.fst = createdCollectionNames)
    ∧ (∀ now, (schemaResult now).collections.filter
          (fun c => !c.2.isEmpty)
        = [("users", [adminUserDoc now]),
           ("system_settings",
             [licenseSettingsDoc now, securitySettingsDoc now, apiSettingsDoc now])]) :=
  ⟨runSchemaJs_eq_schemaResult, fun _ => rfl, fun _ => rfl⟩

/-- C9: the schema defines no collection for device activations and none
for per-period usage counters — neither among the created collections,
nor in the database any run of `schema.js` produces, nor as the target
of any created index. -/
theorem C9_no_activation_or_usage_collections :
    ("device_activations" ∉ createdCollectionNames
      ∧ "usage_counters" ∉ createdCollectionNames)
    ∧ (∀ now db,
        "device_activations" ∉ (runSchemaJs now db).collections.map Prod.fst
        ∧ "usage_counters" ∉ (runSchemaJs now db).collections.map Prod.fst)
    ∧ (∀ spec ∈ createdIndexes,
        spec.coll ≠ "device_activations" ∧ spec.coll ≠ "usage_counters") := by
  refine ⟨by decide, ?_, by decide⟩
  intro now db
  rw [runSchemaJs_eq_schemaResult]
  constructor <;> · intro hmem; simp [schemaResult] at hmem

/-- C9 witness: the first created index targets the `users` collection,
not a device-activation or usage-counter collection. -/
theorem C9_witness :
    ({ coll := "users", keys := [("email", 1)], unique := true } : IndexSpec).coll
        ≠ "device_activations"
    ∧ ({ coll := "users", keys := [("email", 1)], unique := true } : IndexSpec).coll
        ≠ "usage_counters" :=
  C9_no_activation_or_usage_collections.2.2
    { coll := "users", keys := [("email", 1)], unique := true } (by decide)

/-- C10: the `licenses` validator requires only `key`, `user_id`,
`type`, `is_active`, `created_at`; a license document with no
`max_devices`, no `max_api_calls`, no `expiration_date` and no
`activation_date` is accepted as valid. -/
theorem C10_minimal_license_doc_accepted :
    licensesRequired = ["key", "user_id", "type", "is_active", "created_at"]
    ∧ validatorAccepts licensesRequired licensesProps minimalLicenseDoc = true
    ∧ minimalLicenseDoc.all (fun f =>
        f.1 != "max_devices" && f.1 != "max_api_calls"
          && f.1 != "expiration_date" && f.1 != "activation_date") = true :=
  ⟨rfl, by decide, by decide⟩

/-! ### Helper lemmas about the engine state -/

theorem recordFailure_licenses (st : EngineState) (ip : String) (now : Nat) :
    (recordFailure st ip now).licenses = st.licenses := by
  simp only [recordFailure]
  split <;> rfl

theorem recordFailure_activations (st : EngineState) (ip : String) (now : Nat) :
    (recordFailure st ip now).activations = st.activations := by
  simp only [recordFailure]
  split <;> rfl

theorem recordFailure_securityLog (st : EngineState) (ip : String) (now : Nat) :
    (recordFailure st ip now).securityLog = st.securityLog := by
  simp only [recordFailure]
  split <;> rfl

theorem rejectPath_licenses (st : EngineState) (ip : String) (now : Nat) (t : String) :
    (rejectPath st ip now t).licenses = st.licenses := by
  unfold rejectPath logEvent
  rw [recordFailure_licenses]

theorem rejectPath_activations (st : EngineState) (ip : String) (now : Nat) (t : String) :
    (rejectPath st ip now t).activations = st.activations := by
  unfold rejectPath logEvent
  rw [recordFailure_activations]

theorem rejectPath_securityLog (st : EngineState) (ip : String) (now : Nat) (t : String) :
    (rejectPath st ip now t).securityLog = st.securityLog ++ [⟨t, ip, now⟩] := by
  unfold rejectPath logEvent
  rw [recordFailure_securityLog]

theorem setCalls_licenses (st : EngineState) (key : String) (n : Nat) :
    (setCalls st key n).licenses = st.licenses := by
  simp only [setCalls]
  split <;> rfl

theorem setCalls_activations (st : EngineState) (key : String) (n : Nat) :
    (setCalls st key n).activations = st.activations := by
  simp only [setCalls]
  split <;> rfl

theorem setCalls_securityLog (st : EngineState) (key : String) (n : Nat) :
    (setCalls st key n).securityLog = st.securityLog := by
  simp only [setCalls]
  split <;> rfl

theorem lookupLicense_congr {st st' : EngineState}
    (h : st'.licenses = st.licenses) (key : String) :
    lookupLicense st' key = lookupLicense st key := by
  unfold lookupLicense
  rw [h]

theorem countDevices_congr {st st' : EngineState}
    (h : st'.activations = st.activations) (key : String) :
    countDevices st' key = countDevices st key := by
  unfold countDevices
  rw [h]

/-- Adding one activation raises the device count of its own license by
one and leaves every other license's count unchanged. -/
theorem countDevices_cons (st : EngineState) (key device k : String) :
    countDevices { st with activations := (key, device) :: st.activations } k
      = countDevices st k + (if key = k then 1 else 0) := by
  unfold countDevices
  by_cases h : key = k <;> simp [List.filter_cons, h]

/-- Deactivation never raises a device count. -/
theorem countDevices_deactivate_le (st : EngineState) (key device k : String) :
    countDevices (deactivate st key device) k ≤ countDevices st k := by
  unfold countDevices deactivate
  exact ((List.filter_sublist _).filter _).length_le


theorem touchFun_key (key : String) (now : Nat) (l : License) :
    (touchFun key now l).key = l.key := by
  unfold touchFun
  split <;> rfl

theorem touchFun_maxDevices (key : String) (now : Nat) (l : License) :
    (touchFun key now l).maxDevices = l.maxDevices := by
  unfold touchFun
  split <;> rfl

theorem touchLastChecked_eq_map (st : EngineState) (key : String) (now : Nat) :
    (touchLastChecked st key now).licenses = st.licenses.map (touchFun key now) := rfl

theorem touchLastChecked_activations (st : EngineState) (key : String) (now : Nat) :
    (touchLastChecked st key now).activations = st.activations := rfl

theorem touchLastChecked_securityLog (st : EngineState) (key : String) (now : Nat) :
    (touchLastChecked st key now).securityLog = st.securityLog := rfl

/-- Looking a key up after `touchLastChecked` finds the touched version
of whatever was found before. -/
theorem lookupLicense_touch (st : EngineState) (k : String) (now : Nat) (key : String) :
    lookupLicense (touchLastChecked st k now) key
      = (lookupLicense st key).map (touchFun k now) := by
  unfold lookupLicense
  rw [touchLastChecked_eq_map]
  induction st.licenses with
  | nil => rfl
  | cons hd tl ih =>
    rw [List.map_cons, List.find?_cons, List.find?_cons]
    by_cases h : hd.key == key
    · rw [touchFun_key] at *
      simp [h]
    · rw [show ((touchFun k now hd).key == key) = (hd.key == key) from by rw [touchFun_key]]
      simp only [Bool.not_eq_true] at h
      simp [h, ih]

/-- Updating every entry of an association list that matches `key` makes
`find?` return the updated value, provided some entry matches. -/
theorem find?_update_assoc (l : List (String × Nat)) (key : String) (m : Nat)
    (h : l.any (fun c => c.1 == key) = true) :
    (l.map (fun c => if c.1 = key then (c.1, m) else c)).find? (fun c => c.1 == key)
      = some (key, m) := by
  induction l with
  | nil => simp at h
  | cons hd tl ih =>
    by_cases hk : hd.1 = key
    · simp [List.find?_cons, hk]
    · rw [List.any_cons] at h
      simp only [List.map_cons, List.find?_cons, if_neg hk]
      rw [show (hd.1 == key) = false from by simp [hk]] at h ⊢
      simp only [Bool.false_or] at h
      simp only [cond_false]
      exact ih h

/-- Reading the usage counter back after `setCalls` yields the stored
value. -/
theorem getCalls_setCalls (st : EngineState) (key : String) (m : Nat) :
    getCalls (setCalls st key m) key = m := by
  unfold getCalls setCalls
  by_cases h : st.callsUsed.any (fun c => c.1 == key)
  · rw [if_pos h]
    show (match (st.callsUsed.map (fun c => if c.1 = key then (c.1, m) else c)).find?
            (fun c => c.1 == key) with
          | some c => c.2
          | none => 0) = m
    rw [find?_update_assoc st.callsUsed key m h]
  · rw [if_neg h]
    simp [List.find?_cons]

/-! ### Preservation of the device-cap invariant -/

theorem deviceInvariant_congr {st st' : EngineState}
    (hl : st'.licenses = st.licenses) (ha : st'.activations = st.activations) :
    DeviceInvariant st → DeviceInvariant st' := by
  intro h lic hmem hlook hcap
  rw [hl] at hmem
  rw [lookupLicense_congr hl] at hlook
  rw [countDevices_congr ha]
  exact h lic hmem hlook hcap

theorem deviceInvariant_touch (st : EngineState) (k : String) (now : Nat) :
    DeviceInvariant st → DeviceInvariant (touchLastChecked st k now) := by
  intro h lic' hmem' hlook' hcap'
  rw [lookupLicense_touch] at hlook'
  cases hlook0 : lookupLicense st lic'.key with
  | none => rw [hlook0] at hlook'; simp at hlook'
  | some lic0 =>
    rw [hlook0] at hlook'
    simp only [Option.map_some'] at hlook'
    injection hlook' with hlift
    have hkey : lic0.key = lic'.key := by rw [← hlift, touchFun_key]
    have hmax : lic0.maxDevices = lic'.maxDevices := by rw [← hlift, touchFun_maxDevices]
    have hmem0 : lic0 ∈ st.licenses := List.mem_of_find?_eq_some hlook0
    rw [countDevices_congr (touchLastChecked_activations st k now), ← hmax, ← hkey]
    apply h lic0 hmem0
    · rw [hkey]; exact hlook0
    · rw [hmax]; exact hcap'

theorem deviceInvariant_activate (st : EngineState) (now : Nat) (key device : String) :
    DeviceInvariant st → DeviceInvariant (activate st now key device).2 := by
  intro h
  unfold activate
  split
  · exact h
  next lic hlook =>
    split
    next hval =>
      split
      next hmem => exact h
      next hmem =>
        split
        next hguard => exact h
        next hguard =>
          intro lic' hmem' hlook' hcap'
          have hlook2 : lookupLicense st lic'.key = some lic' := hlook'
          have hmem2 : lic' ∈ st.licenses := hmem'
          rw [countDevices_cons]
          by_cases hk : key = lic'.key
          · subst hk
            rw [hlook] at hlook2
            injection hlook2 with he
            subst he
            have hlt : (countDevices st lic.key : Int) < lic.maxDevices := by
              rcases not_and_or.mp hguard with hc | hc
              · exact absurd hcap' (by simpa using hc)
              · exact lt_of_not_le hc
            rw [if_pos rfl]
            push_cast
            omega
          · rw [if_neg hk, Nat.add_zero]
            exact h lic' hmem2 hlook2 hcap'
    next hval => exact h

theorem deviceInvariant_deactivate (st : EngineState) (key device : String) :
    DeviceInvariant st → DeviceInvariant (deactivate st key device) := by
  intro h lic hmem hlook hcap
  have hl : (deactivate st key device).licenses = st.licenses := rfl
  rw [hl] at hmem
  rw [lookupLicense_congr hl] at hlook
  have h1 : countDevices (deactivate st key device) lic.key ≤ countDevices st lic.key :=
    countDevices_deactivate_le st key device lic.key
  have h2 := h lic hmem hlook hcap
  have h3 : ((countDevices (deactivate st key device) lic.key : Nat) : Int)
      ≤ ((countDevices st lic.key : Nat) : Int) := by exact_mod_cast h1
  exact le_trans h3 h2

theorem deviceInvariant_consume (st : EngineState) (key : String) (n : Nat) :
    DeviceInvariant st → DeviceInvariant (consume st key n).2 := by
  intro h
  unfold consume
  split
  · exact h
  · split
    · exact deviceInvariant_congr (setCalls_licenses st key _) (setCalls_activations st key _) h
    · split
      · exact h
      · exact deviceInvariant_congr (setCalls_licenses st key _) (setCalls_activations st key _) h

theorem deviceInvariant_stepOp (st : EngineState) (op : Operation) :
    DeviceInvariant st → DeviceInvariant (stepOp st op) := by
  intro h
  cases op with
  | validate ip now key =>
    show DeviceInvariant (apiValidate st ip now key).2
    unfold apiValidate
    split
    · exact h
    · split
      · exact deviceInvariant_congr (rejectPath_licenses st ip now _)
          (rejectPath_activations st ip now _) h
      · split
        · exact deviceInvariant_touch st key now h
        · exact deviceInvariant_congr (rejectPath_licenses _ ip now _)
            (rejectPath_activations _ ip now _) (deviceInvariant_touch st key now h)
  | activate ip now key device =>
    show DeviceInvariant (apiActivate st ip now key device).2
    unfold apiActivate
    by_cases hb : isBlocked st ip now = true
    · rw [if_pos hb]; exact h
    · rw [if_neg hb]
      have hinv := deviceInvariant_activate st now key device h
      cases hact : activate st now key device with
      | mk r st' =>
        rw [hact] at hinv
        cases r
        · exact hinv
        · exact hinv
        · exact deviceInvariant_congr (rejectPath_licenses st' ip now _)
            (rejectPath_activations st' ip now _) hinv
        · exact deviceInvariant_congr (rejectPath_licenses st' ip now _)
            (rejectPath_activations st' ip now _) hinv
        · exact deviceInvariant_congr (rejectPath_licenses st' ip now _)
            (rejectPath_activations st' ip now _) hinv
  | deactivate ip now key device =>
    show DeviceInvariant (apiDeactivate st ip now key device)
    unfold apiDeactivate
    by_cases hb : isBlocked st ip now = true
    · rw [if_pos hb]; exact h
    · rw [if_neg hb]; exact deviceInvariant_deactivate st key device h
  | consume ip now key n =>
    show DeviceInvariant (apiConsume st ip now key n).2
    unfold apiConsume
    by_cases hb : isBlocked st ip now = true
    · rw [if_pos hb]; exact h
    · rw [if_neg hb]
      have hinv := deviceInvariant_consume st key n h
      cases hcon : consume st key n with
      | mk r st' =>
        rw [hcon] at hinv
        cases r
        · exact hinv
        · exact deviceInvariant_congr (rejectPath_licenses st' ip now _)
            (rejectPath_activations st' ip now _) hinv
        · exact deviceInvariant_congr (rejectPath_licenses st' ip now _)
            (rejectPath_activations st' ip now _) hinv

theorem deviceInvariant_runOps (st : EngineState) (ops : List Operation) :
    DeviceInvariant st → DeviceInvariant (runOps st ops) := by
  induction ops generalizing st with
  | nil => exact fun h => h
  | cons op ops ih => exact fun h => ih (stepOp st op) (deviceInvariant_stepOp st op h)


/-! ### Claim C2 -/

/-- C2: in every reachable state the count of active device activations
of a license never exceeds its `max_devices` unless that is the `-1`
sentinel; `-1` short-circuits the device-cap check (`activate` can never
answer `deviceLimitExceeded` for such a license); and the seeded
settings map the enterprise tier to the `-1` sentinel by default. -/
theorem C2_device_cap_invariant :
    (∀ st ops, DeviceInvariant st → DeviceInvariant (runOps st ops))
    ∧ (∀ st now key device lic, lookupLicense st key = some lic → lic.maxDevices = -1 →
        (activate st now key device).1 ≠ .deviceLimitExceeded)
    ∧ licenseSettingsValue.find? (fun f => f.1 == "max_devices_enterprise")
        = some ("max_devices_enterprise", BsonValue.int (-1)) := by
  refine ⟨deviceInvariant_runOps, ?_, rfl⟩
  intro st now key device lic hlook hunl
  unfold activate
  split
  · simp
  next lic2 hlook2 =>
    rw [hlook] at hlook2
    injection hlook2 with he
    subst he
    split
    · split
      · simp
      · split
        next hguard => exact absurd hunl hguard.1
        · simp
    · simp

/-- C2 witness: the invariant survives a run of three activation
attempts against the demonstration state. -/
theorem C2_witness :
    DeviceInvariant (runOps demoState
      [.activate "ip" 5 "L1" "A", .activate "ip" 5 "L1" "B", .activate "ip" 5 "L1" "C"]) :=
  C2_device_cap_invariant.1 demoState
    [.activate "ip" 5 "L1" "A", .activate "ip" 5 "L1" "B", .activate "ip" 5 "L1" "C"]
    (by decide)

/-! ### Claim C7 -/

theorem deactivate_securityLog (st : EngineState) (key device : String) :
    (deactivate st key device).securityLog = st.securityLog := rfl

theorem activate_securityLog (st : EngineState) (now : Nat) (key device : String) :
    (activate st now key device).2.securityLog = st.securityLog := by
  unfold activate
  split
  · rfl
  · split
    · split
      · rfl
      · split
        · rfl
        · rfl
    · rfl

theorem consume_securityLog (st : EngineState) (key : String) (n : Nat) :
    (consume st key n).2.securityLog = st.securityLog := by
  unfold consume
  split
  · rfl
  · split
    · exact setCalls_securityLog st key _
    · split
      · rfl
      · exact setCalls_securityLog st key _

theorem stepOp_securityLog_extends (st : EngineState) (op : Operation) :
    st.securityLog <+: (stepOp st op).securityLog := by
  cases op with
  | validate ip now key =>
    show st.securityLog <+: (apiValidate st ip now key).2.securityLog
    unfold apiValidate
    split
    · exact List.prefix_refl _
    · split
      · rw [rejectPath_securityLog]
        exact List.prefix_append _ _
      · split
        · rw [touchLastChecked_securityLog]
        · rw [rejectPath_securityLog, touchLastChecked_securityLog]
          exact List.prefix_append _ _
  | activate ip now key device =>
    show st.securityLog <+: (apiActivate st ip now key device).2.securityLog
    unfold apiActivate
    split
    · exact List.prefix_refl _
    · have hlog := activate_securityLog st now key device
      cases hact : activate st now key device with
      | mk r st' =>
        rw [hact] at hlog
        cases r
        · show st.securityLog <+: st'.securityLog
          rw [hlog]
        · show st.securityLog <+: st'.securityLog
          rw [hlog]
        · show st.securityLog <+: (rejectPath st' ip now "activation_rejected").securityLog
          rw [rejectPath_securityLog, hlog]
          exact List.prefix_append _ _
        · show st.securityLog <+: (rejectPath st' ip now "activation_rejected").securityLog
          rw [rejectPath_securityLog, hlog]
          exact List.prefix_append _ _
        · show st.securityLog <+: (rejectPath st' ip now "activation_rejected").securityLog
          rw [rejectPath_securityLog, hlog]
          exact List.prefix_append _ _
  | deactivate ip now key device =>
    show st.securityLog <+: (apiDeactivate st ip now key device).securityLog
    unfold apiDeactivate
    split
    · exact List.prefix_refl _
    · rw [deactivate_securityLog]
  | consume ip now key n =>
    show st.securityLog <+: (apiConsume st ip now key n).2.securityLog
    unfold apiConsume
    split
    · exact List.prefix_refl _
    · have hlog := consume_securityLog st key n
      cases hcon : consume st key n with
      | mk r st' =>
        rw [hcon] at hlog
        cases r
        · show st.securityLog <+: st'.securityLog
          rw [hlog]
        · show st.securityLog <+: (rejectPath st' ip now "quota_rejected").securityLog
          rw [rejectPath_securityLog, hlog]
          exact List.prefix_append _ _
        · show st.securityLog <+: (rejectPath st' ip now "quota_rejected").securityLog
          rw [rejectPath_securityLog, hlog]
          exact List.prefix_append _ _

theorem runOps_securityLog_extends (st : EngineState) (ops : List Operation) :
    st.securityLog <+: (runOps st ops).securityLog := by
  induction ops generalizing st with
  | nil => exact List.prefix_refl _
  | cons op ops ih => exact (stepOp_securityLog_extends st op).trans (ih (stepOp st op))

/-- C7: the security-event log is append-only — after any single
operation and after any finite run of operations, the previous log is a
prefix of the new one, so nothing already written is ever removed or
modified. -/
theorem C7_security_log_append_only :
    (∀ st op, st.securityLog <+: (stepOp st op).securityLog)
    ∧ (∀ st ops, st.securityLog <+: (runOps st ops).securityLog) :=
  ⟨stepOp_securityLog_extends, runOps_securityLog_extends⟩

/-! ### Claim C4 -/

/-- C4: activation is idempotent — a successful `activate` binds the
pair and raises the device count by one; activating the same pair again
answers `alreadyActivated` as a success with the state (and hence the
device count) unchanged, and every further repetition leaves the state
fixed. -/
theorem C4_idempotent_activation (st : EngineState) (now : Nat) (key device : String)
    (st' : EngineState) (h : activate st now key device = (.activated, st')) :
    (key, device) ∈ st'.activations
    ∧ countDevices st' key = countDevices st key + 1
    ∧ activate st' now key device = (.alreadyActivated, st')
    ∧ ∀ n, iterActivate now key device n st' = st' := by
  unfold activate at h
  split at h
  · simp at h
  next lic hlook =>
    split at h
    next hval =>
      split at h
      next hmem => simp at h
      next hmem =>
        split at h
        next hguard => simp at h
        next hguard =>
          have hst' : st' = { st with activations := (key, device) :: st.activations } :=
            (congrArg Prod.snd h).symm
          subst hst'
          have hlk : lookupLicense
              { st with activations := (key, device) :: st.activations } key = some lic := hlook
          have hsecond : activate { st with activations := (key, device) :: st.activations }
              now key device
              = (.alreadyActivated, { st with activations := (key, device) :: st.activations }) := by
            simp [activate, hlk, hval, List.mem_cons]
          refine ⟨List.mem_cons_self _ _, ?_, hsecond, ?_⟩
          · rw [countDevices_cons, if_pos rfl]
          · intro n
            induction n with
            | zero => rfl
            | succ m ih =>
              show iterActivate now key device m
                (activate { st with activations := (key, device) :: st.activations }
                  now key device).2 = _
              rw [hsecond]
              exact ih
    next hval => simp at h

/-- C4 witness: the idempotency facts hold for the demonstration state,
the license `L1` and the device fingerprint `A`. -/
theorem C4_witness :
    ("L1", "A") ∈ (activate demoState 5 "L1" "A").2.activations
    ∧ countDevices (activate demoState 5 "L1" "A").2 "L1" = countDevices demoState "L1" + 1
    ∧ activate (activate demoState 5 "L1" "A").2 5 "L1" "A"
        = (.alreadyActivated, (activate demoState 5 "L1" "A").2) :=
  have h := C4_idempotent_activation demoState 5 "L1" "A"
    (activate demoState 5 "L1" "A").2 (by decide)
  ⟨h.1, h.2.1, h.2.2.1⟩

/-! ### Claim C5 -/

/-- Modelled from the spec: a license whose expiration date lies in the
past validates as `expired`, whatever its `is_active` flag says. -/
theorem validateLicense_expired (lic : License) (now e : Nat)
    (hexp : lic.expirationDate = some e) (hlt : e < now) :
    validateLicense lic now = .expired := by
  unfold validateLicense
  rw [hexp]
  show (if e ≤ now then ValidationResult.expired
        else if lic.isActive = true then ValidationResult.valid else ValidationResult.inactive)
      = ValidationResult.expired
  rw [if_pos (Nat.le_of_lt hlt)]

/-- Modelled from the spec: a license with `is_active = false` never
validates as `valid`, regardless of its dates. -/
theorem validateLicense_ne_valid_of_inactive (lic : License) (now : Nat)
    (hia : lic.isActive = false) :
    validateLicense lic now ≠ .valid := by
  unfold validateLicense
  cases hexp : lic.expirationDate with
  | none => rw [hia]; simp
  | some e =>
    show (if e ≤ now then ValidationResult.expired
          else if lic.isActive = true then ValidationResult.valid else ValidationResult.inactive)
        ≠ ValidationResult.valid
    by_cases he : e ≤ now
    · rw [if_pos he]; simp
    · rw [if_neg he, hia]; simp

/-- An inactive license makes the Activation Coordinator reject with a
`licenseInvalid` result. -/
theorem activate_fst_of_inactive (st : EngineState) (now : Nat) (key device : String)
    (lic : License) (hlook : lookupLicense st key = some lic) (hia : lic.isActive = false) :
    (activate st now key device).1 = .licenseInvalid (validateLicense lic now) := by
  unfold activate
  split
  next hl => rw [hlook] at hl; cases hl
  next lic2 hl =>
    rw [hlook] at hl
    injection hl with he
    subst he
    rw [if_neg (validateLicense_ne_valid_of_inactive lic now hia)]

/-- C5: a license whose expiration date is past always validates as
`expired`, even with `is_active = true`; and a license with
`is_active = false` rejects all validation and activation calls — it
never validates as `valid`, the API never answers a successful
activation for it, and the API never answers `valid` for it. -/
theorem C5_expired_beats_active_and_inactive_rejects :
    (∀ lic now e, lic.expirationDate = some e → e < now →
        validateLicense lic now = .expired)
    ∧ (∀ lic now, lic.isActive = false → validateLicense lic now ≠ .valid)
    ∧ (∀ st ip now key device lic, lookupLicense st key = some lic → lic.isActive = false →
        (apiActivate st ip now key device).1 ≠ .ok .activated
        ∧ (apiActivate st ip now key device).1 ≠ .ok .alreadyActivated)
    ∧ (∀ st ip now key lic, lookupLicense st key = some lic → lic.isActive = false →
        (apiValidate st ip now key).1 ≠ .result .valid) := by
  refine ⟨validateLicense_expired, validateLicense_ne_valid_of_inactive, ?_, ?_⟩
  · intro st ip now key device lic hlook hia
    unfold apiActivate
    split
    · exact ⟨by simp, by simp⟩
    · have hfst := activate_fst_of_inactive st now key device lic hlook hia
      cases hact : activate st now key device with
      | mk r st2 =>
        rw [hact] at hfst
        have hr : r = .licenseInvalid (validateLicense lic now) := hfst
        subst hr
        exact ⟨by simp, by simp⟩
  · intro st ip now key lic hlook hia
    unfold apiValidate
    split
    · simp
    · split
      next hl => simp
      next lic2 hl =>
        rw [hlook] at hl
        injection hl with he
        subst he
        rw [if_neg (validateLicense_ne_valid_of_inactive lic now hia)]
        intro hcontra
        have hcontra2 : ValidateOutcome.result (validateLicense lic now)
            = ValidateOutcome.result .valid := hcontra
        injection hcontra2 with hr
        exact validateLicense_ne_valid_of_inactive lic now hia hr


/-- C5 witness: the expired demonstration license validates as
`expired` at time 20 even though `is_active` is true. -/
theorem C5_witness : validateLicense expiredLicense 20 = .expired :=
  C5_expired_beats_active_and_inactive_rejects.1 expiredLicense 20 10 rfl (by decide)

/-! ### Claim C3 -/


/-- A call that would pass the cap rejects with `quotaExceeded` and
leaves the whole state — in particular the counter — unchanged. -/
theorem consume_quotaExceeded (st : EngineState) (key : String) (n : Nat) (lic : License)
    (hlook : lookupLicense st key = some lic) (hcap : lic.maxApiCalls ≠ -1)
    (hover : lic.maxApiCalls < ((getCalls st key + n : Nat) : Int)) :
    consume st key n = (.quotaExceeded, st) := by
  unfold consume
  split
  next hl => rw [hlook] at hl; cases hl
  next lic2 hl =>
    rw [hlook] at hl
    injection hl with he
    subst he
    rw [if_neg hcap, if_pos hover]

/-- A call within the cap succeeds and stores the incremented counter. -/
theorem consume_ok (st : EngineState) (key : String) (n : Nat) (lic : License)
    (hlook : lookupLicense st key = some lic) (hcap : lic.maxApiCalls ≠ -1)
    (hle : ((getCalls st key + n : Nat) : Int) ≤ lic.maxApiCalls) :
    consume st key n = (.ok, setCalls st key (getCalls st key + n)) := by
  unfold consume
  split
  next hl => rw [hlook] at hl; cases hl
  next lic2 hl =>
    rw [hlook] at hl
    injection hl with he
    subst he
    rw [if_neg hcap, if_neg (not_lt.mpr hle)]

/-- C3: quota consumption never drives `calls_used` above
`max_api_calls` for a finitely capped license; a call that would exceed
the cap returns `quotaExceeded` and leaves the counter unchanged; and on
a license with `max_api_calls = 100`, 100 sequential `consume(key, 1)`
calls succeed while the 101st returns `quotaExceeded`. -/
theorem C3_quota_never_exceeds_cap :
    (∀ st key n lic, lookupLicense st key = some lic → lic.maxApiCalls ≠ -1 →
        (getCalls st key : Int) ≤ lic.maxApiCalls →
        (getCalls (consume st key n).2 key : Int) ≤ lic.maxApiCalls)
    ∧ (∀ st key n lic, lookupLicense st key = some lic → lic.maxApiCalls ≠ -1 →
        lic.maxApiCalls < ((getCalls st key + n : Nat) : Int) →
        consume st key n = (.quotaExceeded, st))
    ∧ (consumeTrace quotaState "Q1" 101).1
        = List.replicate 100 QuotaResult.ok ++ [QuotaResult.quotaExceeded] := by
  refine ⟨?_, consume_quotaExceeded, by decide⟩
  intro st key n lic hlook hcap hle
  by_cases hover : lic.maxApiCalls < ((getCalls st key + n : Nat) : Int)
  · rw [consume_quotaExceeded st key n lic hlook hcap hover]
    exact hle
  · rw [consume_ok st key n lic hlook hcap (not_lt.mp hover)]
    show ((getCalls (setCalls st key (getCalls st key + n)) key : Nat) : Int) ≤ lic.maxApiCalls
    rw [getCalls_setCalls]
    exact not_lt.mp hover

/-- C3 witness: with the counter already at the cap of 100, one more
call is rejected and changes nothing. -/
theorem C3_witness :
    consume (setCalls quotaState "Q1" 100) "Q1" 1
      = (.quotaExceeded, setCalls quotaState "Q1" 100) :=
  C3_quota_never_exceeds_cap.2.1 (setCalls quotaState "Q1" 100) "Q1" 1 quotaLicense
    (by decide) (by decide) (by decide)

/-! ### Claim C6 -/


/-- Reaching the threshold makes `recordFailure` add a temporary Block
Entry expiring at now + block duration. -/
theorem recordFailure_blocked_of_threshold (st : EngineState) (ip : String) (now : Nat)
    (hth : st.cfg.threshold ≤ recentFailures (pushFailure st ip now) ip now) :
    recordFailure st ip now = blockedAfterFailure st ip now := by
  show (if st.cfg.threshold ≤ recentFailures (pushFailure st ip now) ip now then blockedAfterFailure st ip now else pushFailure st ip now) = blockedAfterFailure st ip now
  rw [if_pos hth]


/-- C6: a blocked IP gets `blocked` from every call before any license
lookup, even with a valid key; a Block Entry with no block-until is
permanent; reaching the threshold creates a temporary entry that blocks
exactly until now + block duration and then self-expires; and in the
concrete scenario, after three failed validations the valid key `L1`
answers `blocked` at time 4 and `valid` again at time 53 when the block
has elapsed. -/
theorem C6_failed_validation_blocking :
    (∀ st ip now key, isBlocked st ip now = true → apiValidate st ip now key = (.blocked, st))
    ∧ (∀ st ip now, (⟨ip, none⟩ : BlockEntry) ∈ st.blocked → isBlocked st ip now = true)
    ∧ (∀ st ip now,
        st.cfg.threshold ≤ recentFailures (pushFailure st ip now) ip now →
        (∀ e ∈ st.blocked, e.ip ≠ ip) →
        ∀ t, isBlocked (recordFailure st ip now) ip t
              = decide (t < now + st.cfg.blockDuration))
    ∧ ((apiValidate c6After c6Ip 4 "L1").1 = .blocked
        ∧ (apiValidate c6After c6Ip 53 "L1").1 = .result .valid) := by
  refine ⟨?_, ?_, ?_, by decide, by decide⟩
  · intro st ip now key h
    unfold apiValidate
    rw [if_pos h]
  · intro st ip now h
    unfold isBlocked
    rw [List.any_eq_true]
    exact ⟨⟨ip, none⟩, h, by simp⟩
  · intro st ip now hth hnone t
    rw [recordFailure_blocked_of_threshold st ip now hth]
    unfold isBlocked
    rw [show (blockedAfterFailure st ip now).blocked
          = BlockEntry.mk ip (some (now + st.cfg.blockDuration)) :: st.blocked from rfl]
    rw [List.any_cons]
    have hrest : st.blocked.any (fun e =>
        e.ip == ip && match e.blockedUntil with | none => true | some u => decide (t < u))
        = false := by
      rw [List.any_eq_false]
      intro e he
      simp [hnone e he]
    rw [hrest]
    simp


/-- C6 witness: with a permanent Block Entry in place, even the valid
key `L1` answers `blocked`. -/
theorem C6_witness :
    apiValidate blockedState c6Ip 7 "L1" = (.blocked, blockedState) :=
  C6_failed_validation_blocking.1 blockedState c6Ip 7 "L1" (by decide)

/-! ### Claim C1 -/

/-- A device fingerprint already bound to a license forces a positive
device count. -/
theorem countDevices_pos_of_mem (st : EngineState) (key d : String)
    (h : (key, d) ∈ st.activations) : 0 < countDevices st key :=
  List.length_pos_of_mem (List.mem_filter.mpr ⟨h, by simp⟩)

/-- Core counting lemma: running a batch of distinct, not-yet-bound
fingerprints against a valid license with `max_devices = N` produces
`min (N - current count) (batch length)` `activated` answers and
`deviceLimitExceeded` for all the rest, whatever the arrival order. -/
theorem activateAll_counts (now : Nat) (key : String) (N : Nat) (lic : License)
    (hmax : lic.maxDevices = (N : Int)) :
    ∀ (ds : List String) (st : EngineState), ds.Nodup →
      lookupLicense st key = some lic →
      validateLicense lic now = .valid →
      (∀ d ∈ ds, (key, d) ∉ st.activations) →
      resCount .activated (activateAll st now key ds).1
          = min (N - countDevices st key) ds.length
      ∧ resCount .deviceLimitExceeded (activateAll st now key ds).1
          = ds.length - min (N - countDevices st key) ds.length := by
  intro ds
  induction ds with
  | nil => intro st _ _ _ _; simp [activateAll, resCount]
  | cons d ds ih =>
    intro st hnd hlook hval hnin
    have hndtl : ds.Nodup := hnd.of_cons
    have hdnotin : d ∉ ds := (List.nodup_cons.mp hnd).1
    have hnind : (key, d) ∉ st.activations := hnin d (List.mem_cons_self d ds)
    have hne : lic.maxDevices ≠ -1 := by rw [hmax]; omega
    by_cases hge : lic.maxDevices ≤ (countDevices st key : Int)
    · have hcN : N ≤ countDevices st key := by
        rw [hmax] at hge
        exact_mod_cast hge
      have hact : activate st now key d = (.deviceLimitExceeded, st) := by
        unfold activate
        split
        next hl => rw [hlook] at hl; cases hl
        next lic2 hl =>
          rw [hlook] at hl
          injection hl with he
          subst he
          rw [if_pos hval, if_neg hnind, if_pos ⟨hne, hge⟩]
      have hcons : activateAll st now key (d :: ds)
          = (ActivationResult.deviceLimitExceeded :: (activateAll st now key ds).1,
             (activateAll st now key ds).2) := by
        simp [activateAll, hact]
      have hrec := ih st hndtl hlook hval (fun d' hd' => hnin d' (List.mem_cons_of_mem d hd'))
      rw [hcons]
      simp only [resCount, List.length_cons]
      rw [hrec.1, hrec.2]
      constructor
      · rw [if_neg (by simp)]
        omega
      · simp only [if_true]
        omega
    · have hltN : countDevices st key < N := by
        rw [hmax] at hge
        have := lt_of_not_le hge
        exact_mod_cast this
      have hact : activate st now key d
          = (.activated, { st with activations := (key, d) :: st.activations }) := by
        unfold activate
        split
        next hl => rw [hlook] at hl; cases hl
        next lic2 hl =>
          rw [hlook] at hl
          injection hl with he
          subst he
          rw [if_pos hval, if_neg hnind, if_neg (fun hc => hge hc.2)]
      have hlk : lookupLicense { st with activations := (key, d) :: st.activations } key
          = some lic := hlook
      have hc2 : countDevices { st with activations := (key, d) :: st.activations } key
          = countDevices st key + 1 := by
        rw [countDevices_cons, if_pos rfl]
      have hnin2 : ∀ d' ∈ ds,
          (key, d') ∉ ({ st with activations := (key, d) :: st.activations }).activations := by
        intro d' hd' hmem
        rcases List.mem_cons.mp hmem with heq | hmem2
        · exact hdnotin (by injection heq with h1 h2; rw [← h2]; exact hd')
        · exact hnin d' (List.mem_cons_of_mem d hd') hmem2
      have hrec := ih { st with activations := (key, d) :: st.activations }
        hndtl hlk hval hnin2
      rw [hc2] at hrec
      have hcons : activateAll st now key (d :: ds)
          = (ActivationResult.activated ::
              (activateAll { st with activations := (key, d) :: st.activations } now key ds).1,
             (activateAll { st with activations := (key, d) :: st.activations } now key ds).2) := by
        simp [activateAll, hact]
      rw [hcons]
      simp only [resCount, List.length_cons]
      rw [hrec.1, hrec.2]
      constructor
      · simp only [if_true]
        omega
      · rw [if_neg (by simp)]
        omega

/-- C1: with `max_devices = N` and a batch of N + k distinct fresh
device fingerprints (k > 0), exactly N attempts answer `activated` and
k answer `deviceLimitExceeded`, for every arrival order.  Concurrency is
modelled by linearization: the spec requires all ledger updates to go
through the store's atomic conditional-update primitive, so a concurrent
execution is some arbitrary sequential order of atomic steps, and the
statement quantifies over all orders. -/
theorem C1_concurrent_activation_counts (N k now : Nat) (key : String)
    (ds : List String) (st : EngineState) (lic : License)
    (hnd : ds.Nodup) (hlen : ds.length = N + k) (hk : 0 < k)
    (hlook : lookupLicense st key = some lic)
    (hmax : lic.maxDevices = (N : Int))
    (hval : validateLicense lic now = .valid)
    (hfresh : countDevices st key = 0) :
    resCount .activated (activateAll st now key ds).1 = N
    ∧ resCount .deviceLimitExceeded (activateAll st now key ds).1 = k := by
  have hnin : ∀ d ∈ ds, (key, d) ∉ st.activations := by
    intro d _ hmem
    have := countDevices_pos_of_mem st key d hmem
    omega
  have h := activateAll_counts now key N lic hmax ds st hnd hlook hval hnin
  rw [hfresh, hlen] at h
  constructor
  · rw [h.1]; omega
  · rw [h.2]; omega

/-- C1 witness: `max_devices = 2` and three distinct fresh devices give
exactly two `activated` and one `deviceLimitExceeded`. -/
theorem C1_witness :
    resCount .activated (activateAll demoState 5 "L1" ["A", "B", "C"]).1 = 2
    ∧ resCount .deviceLimitExceeded (activateAll demoState 5 "L1" ["A", "B", "C"]).1 = 1 :=
  C1_concurrent_activation_counts 2 1 5 "L1" ["A", "B", "C"] demoState demoLicense
    (by decide) (by decide) (by decide) (by decide) (by decide) (by decide) (by decide)

end LicenseAPI
